import Mathlib

/-!
Shallow embedding of the simulated-exchange core of the FEDformer trading
repository: `ManagerPosition` (src/agents/manager_position.py), the fee
constants (src/const/const.py), and the simulation client
(src/agents/client_simulation.py).  Python float arithmetic is modelled
over `ℚ`.
-/

namespace Fee

/-- `Fee.Taker` from src/const/const.py: taker commission rate 0.0005. -/
def Taker : ℚ := 5 / 10000

/-- `Fee.commission(amount)` from src/const/const.py: `amount * Fee.Taker`. -/
def commission (amount : ℚ) : ℚ := amount * Taker

end Fee

/-- The position state of `ManagerPosition.__init__` / its fields
(src/agents/manager_position.py, lines 27-35). -/
structure ManagerPosition where
  side : Int
  size : ℚ
  entry_price : ℚ
  unrealized_pnl : ℚ
  holding_time : Nat
  idle_time : Nat
  capital : ℚ
  max_profit : ℚ
  max_loss : ℚ
  deriving Repr, DecidableEq

namespace ManagerPosition

/-- `ManagerPosition.reset` (lines 37-47): zero every field. -/
def reset (_p : ManagerPosition) : ManagerPosition :=
  { side := 0, size := 0, entry_price := 0, unrealized_pnl := 0,
    holding_time := 0, idle_time := 0, capital := 0,
    max_profit := 0, max_loss := 0 }

/-- `ManagerPosition.update(current_price)` (lines 49-78). -/
def update (p : ManagerPosition) (current_price : ℚ) : ManagerPosition :=
  if p.side = 0 then
    { p with size := 0, entry_price := 0, unrealized_pnl := 0, capital := 0,
             holding_time := 0, idle_time := p.idle_time + 1 }
  else
    let upnl : ℚ :=
      if p.side = 1 then (current_price - p.entry_price) * p.size
      else (p.entry_price - current_price) * p.size
    let p1 := { p with idle_time := 0, unrealized_pnl := upnl,
                       holding_time := p.holding_time + 1 }
    if upnl > p.max_profit then { p1 with max_profit := upnl }
    else if upnl < p.max_loss then { p1 with max_loss := upnl }
    else p1

/-- The size epsilon `0.0000000001` in `ManagerPosition.open` (line 82). -/
def sizeEps : ℚ := 1 / 10000000000

/-- `ManagerPosition.open(current_price, position_size, balance, side)`
(lines 80-109).  Returns the new position state together with the
`(bool, balance)` pair the Python method returns. -/
def openPos (p : ManagerPosition) (current_price position_size balance : ℚ)
    (side : Int) : ManagerPosition × Bool × ℚ :=
  if position_size ≤ sizeEps then (p, false, balance)
  else
    let amount := position_size * current_price
    let commission := Fee.commission amount
    if balance < commission + amount then (p, false, balance)
    else
      let balance1 := balance - commission - amount
      ({ side := side, size := position_size, entry_price := current_price,
         capital := amount + commission, unrealized_pnl := 0,
         holding_time := 1, idle_time := 0, max_profit := 0, max_loss := 0 },
       true, balance1)

/-- `ManagerPosition.close(current_price, balance)` (lines 111-143).
Returns the new position state together with the `(realized_pnl, balance)`
pair the Python method returns.  Mirrors the source's assignment order: the
balance is floored to 0 first, and `realized_pnl = -balance` then reads the
floored value. -/
def close (p : ManagerPosition) (current_price balance : ℚ) :
    ManagerPosition × ℚ × ℚ :=
  let amount := p.size * current_price
  let realized_pnl : ℚ :=
    if p.side = 1 then (current_price - p.entry_price) * p.size
    else (p.entry_price - current_price) * p.size
  let commission := Fee.commission amount
  let balance1 := balance + amount - commission
  let flat : ManagerPosition :=
    { side := 0, size := 0, entry_price := 0, unrealized_pnl := 0,
      capital := 0, holding_time := 0, idle_time := 1,
      max_profit := 0, max_loss := 0 }
  if balance1 < 0 then
    let balance2 : ℚ := 0
    (flat, -balance2, balance2)
  else
    (flat, realized_pnl, balance1)

end ManagerPosition

/-- A freshly constructed flat position (`ManagerPosition()` defaults). -/
def initPosition : ManagerPosition :=
  { side := 0, size := 0, entry_price := 0, unrealized_pnl := 0,
    holding_time := 0, idle_time := 0, capital := 0,
    max_profit := 0, max_loss := 0 }

/-- One step of a sequence of `open`/`close` calls threading the account
balance, as the environments drive `ManagerPosition`. -/
inductive PosOp where
  | opOpen (price size : ℚ) (side : Int)
  | opClose (price : ℚ)
  deriving Repr, DecidableEq

/-- Apply one `PosOp` to a `(position, balance)` pair. -/
def runOp (s : ManagerPosition × ℚ) (o : PosOp) : ManagerPosition × ℚ :=
  match o with
  | PosOp.opOpen price size side =>
      let r := s.1.openPos price size s.2 side
      (r.1, r.2.2)
  | PosOp.opClose price =>
      let r := s.1.close price s.2
      (r.1, r.2.2)

/-- Run a sequence of `open`/`close` calls from a starting state. -/
def runOps (s : ManagerPosition × ℚ) (l : List PosOp) : ManagerPosition × ℚ :=
  l.foldl runOp s

/-- The flat invariant of the spec: `side = 0 ⇔ size = 0 ⇔ entryPrice = 0`. -/
def flatInv (p : ManagerPosition) : Prop :=
  (p.side = 0 ↔ p.size = 0) ∧ (p.size = 0 ↔ p.entry_price = 0)

instance (p : ManagerPosition) : Decidable (flatInv p) := by
  unfold flatInv; infer_instance

/-! ## Simulation client (src/agents/client_simulation.py)

Python string constants `SIDE_BUY` / `SIDE_SELL`, `ORDER_TYPE_MARKET` /
`ORDER_TYPE_LIMIT` and the status strings become inductives; the uuid order
id becomes a fresh `Nat` token (its value is opaque to the engine);
timestamps and `timeInForce` carry no engine semantics and are omitted. -/

inductive OrderSide where
  | buy
  | sell
  deriving Repr, DecidableEq

inductive OrderType where
  | market
  | limit
  deriving Repr, DecidableEq

inductive OrderStatus where
  | new
  | filled
  | canceled
  deriving Repr, DecidableEq

/-- An order record as built by `place_market_order` / `place_limit_order`. -/
structure Order where
  orderId : Nat
  symbol : String
  side : OrderSide
  otype : OrderType
  quantity : ℚ
  price : ℚ
  reduceOnly : Bool
  status : OrderStatus
  deriving Repr, DecidableEq

/-- A trade record as appended to `self.trades` on every fill. -/
structure Trade where
  symbol : String
  orderId : Nat
  side : OrderSide
  price : ℚ
  quantity : ℚ
  commission : ℚ
  deriving Repr, DecidableEq

/-- The per-symbol position dict entry `{'size': _, 'entry_price': _}`. -/
structure SimPosition where
  size : ℚ
  entry_price : ℚ
  deriving Repr, DecidableEq

/-- Python dict lookup on an insertion-ordered association list. -/
def assocGet {α : Type} (l : List (String × α)) (k : String) : Option α :=
  match l with
  | [] => none
  | (k1, v1) :: rest => if k1 = k then some v1 else assocGet rest k

/-- Python dict assignment `d[k] = v` on an insertion-ordered association
list: overwrite in place, or append when the key is new. -/
def assocSet {α : Type} (l : List (String × α)) (k : String) (v : α) :
    List (String × α) :=
  match l with
  | [] => [(k, v)]
  | (k1, v1) :: rest =>
      if k1 = k then (k1, v) :: rest else (k1, v1) :: assocSet rest k v

/-- The mutable state of `ClientSimulation` (balance, positions, orders,
trades, market-price cache). -/
structure ClientSimulation where
  balance : ℚ
  positions : List (String × SimPosition)
  orders : List Order
  trades : List Trade
  market_prices : List (String × ℚ)
  deriving Repr, DecidableEq

/-- A freshly constructed client with balance `config['initial_balance']`. -/
def initClient (b : ℚ) : ClientSimulation :=
  { balance := b, positions := [], orders := [], trades := [],
    market_prices := [] }

/-- `ClientSimulation._calculate_commission(order_value)` (lines 363-365):
`order_value * Fee.Taker`. -/
def calculate_commission (order_value : ℚ) : ℚ :=
  order_value * Fee.Taker

namespace ClientSimulation

/-- `ClientSimulation._update_position(symbol, side, quantity, price)`
(lines 328-361): adjust the signed size, recompute the entry price
(size-weighted average on a same-direction add, reset otherwise) and
debit only the commission from the balance. -/
def update_position (c : ClientSimulation) (symbol : String)
    (side : OrderSide) (quantity price : ℚ) : ClientSimulation :=
  let position := (assocGet c.positions symbol).getD ⟨0, 0⟩
  let old_size := position.size
  let new_size :=
    match side with
    | OrderSide.buy => old_size + quantity
    | OrderSide.sell => old_size - quantity
  let entry_price1 : ℚ :=
    if old_size * new_size ≤ 0 ∨ new_size = 0 then
      (if new_size ≠ 0 then price else 0)
    else
      (|old_size| * position.entry_price + quantity * price) / |new_size|
  let commission := calculate_commission (price * quantity)
  { c with positions := assocSet c.positions symbol ⟨new_size, entry_price1⟩,
           balance := c.balance - commission }

/-- The fill-eligibility test of `_check_limit_orders` (lines 298-304):
a `New` limit order for this symbol, with `price ≤ limit` for a buy or
`price ≥ limit` for a sell. -/
def eligibleLimit (symbol : String) (price : ℚ) (o : Order) : Bool :=
  decide (o.symbol = symbol ∧ o.status = OrderStatus.new ∧
    o.otype = OrderType.limit ∧
    ((o.side = OrderSide.buy ∧ price ≤ o.price) ∨
     (o.side = OrderSide.sell ∧ o.price ≤ price)))

/-- The trade record appended on a limit fill (lines 315-326): it executes
at the order's own limit price `o.price`, not the tick price. -/
def tradeOf (symbol : String) (o : Order) : Trade :=
  { symbol := symbol, orderId := o.orderId, side := o.side, price := o.price,
    quantity := o.quantity,
    commission := calculate_commission (o.price * o.quantity) }

/-- The body of the `for order in self.orders` loop of
`_check_limit_orders`: thread the client state, and rebuild the order list
with the matched orders marked `Filled`. -/
def fillStep (symbol : String) (price : ℚ)
    (st : ClientSimulation × List Order) (o : Order) :
    ClientSimulation × List Order :=
  if eligibleLimit symbol price o then
    let c1 := st.1.update_position symbol o.side o.quantity o.price
    let c2 := { c1 with trades := c1.trades ++ [tradeOf symbol o] }
    (c2, st.2 ++ [{ o with status := OrderStatus.filled }])
  else (st.1, st.2 ++ [o])

/-- `ClientSimulation._check_limit_orders(symbol, price)` (lines 296-326). -/
def check_limit_orders (c : ClientSimulation) (symbol : String) (price : ℚ) :
    ClientSimulation :=
  let r := c.orders.foldl (fillStep symbol price) (c, [])
  { r.1 with orders := r.2 }

/-- `ClientSimulation.update_market_price(symbol, price)` (lines 289-294):
cache the tick, then run the limit-order matching scan. -/
def update_market_price (c : ClientSimulation) (symbol : String) (price : ℚ) :
    ClientSimulation :=
  let c1 := { c with market_prices := assocSet c.market_prices symbol price }
  c1.check_limit_orders symbol price

/-- `ClientSimulation.place_market_order(symbol, side, quantity,
reduce_only)` (lines 169-215).  Python's `if not price:` also treats a
cached price of `0` as missing. -/
def place_market_order (c : ClientSimulation) (symbol : String)
    (side : OrderSide) (quantity : ℚ) (reduce_only : Bool) :
    ClientSimulation × Option Order :=
  match assocGet c.market_prices symbol with
  | none => (c, none)
  | some price =>
    if price = 0 then (c, none)
    else
      let order : Order :=
        { orderId := c.orders.length, symbol := symbol, side := side,
          otype := OrderType.market, quantity := quantity, price := price,
          reduceOnly := reduce_only, status := OrderStatus.filled }
      let c1 := c.update_position symbol side quantity price
      let c2 :=
        { c1 with orders := c1.orders ++ [order],
                  trades := c1.trades ++
                    [{ symbol := symbol, orderId := order.orderId,
                       side := side, price := price, quantity := quantity,
                       commission := calculate_commission (price * quantity) }] }
      (c2, some order)

/-- `ClientSimulation.place_limit_order(...)` (lines 217-247): record a
resting `New` order; no position, trade or balance effect. -/
def place_limit_order (c : ClientSimulation) (symbol : String)
    (side : OrderSide) (quantity price : ℚ) (reduce_only : Bool) :
    ClientSimulation × Order :=
  let order : Order :=
    { orderId := c.orders.length, symbol := symbol, side := side,
      otype := OrderType.limit, quantity := quantity, price := price,
      reduceOnly := reduce_only, status := OrderStatus.new }
  ({ c with orders := c.orders ++ [order] }, order)

/-- The per-matched-order state effect of `_check_limit_orders`: fill at the
order's own limit price and append the trade record. -/
def applyFill (symbol : String) (c : ClientSimulation) (o : Order) :
    ClientSimulation :=
  let c1 := c.update_position symbol o.side o.quantity o.price
  { c1 with trades := c1.trades ++ [tradeOf symbol o] }

/-- The per-order status effect of one matching scan. -/
def markFilled (symbol : String) (price : ℚ) (o : Order) : Order :=
  if eligibleLimit symbol price o then { o with status := OrderStatus.filled }
  else o

end ClientSimulation

/-! ## Concrete fixtures used by witnesses and counterexamples -/

/-- A long position: side 1, size 1, entry price 100. -/
def pLong : ManagerPosition :=
  { side := 1, size := 1, entry_price := 100, unrealized_pnl := 0,
    holding_time := 1, idle_time := 0, capital := 0,
    max_profit := 0, max_loss := 0 }

/-- A client holding a long simulated position of size 1 at entry 100. -/
def cPos : ClientSimulation :=
  { balance := 1000, positions := [("X", ⟨1, 100⟩)], orders := [],
    trades := [], market_prices := [] }

/-- A client with one resting buy limit order at price 50. -/
def cRest : ClientSimulation :=
  ((initClient 100).place_limit_order "X" OrderSide.buy 1 50 false).1

/-- A client whose only recorded tick for "X" carries price 0. -/
def cZero : ClientSimulation :=
  (initClient 100).update_market_price "X" 0

/-- A client with balance 1 and a recorded tick of price 1 for "X". -/
def cTick1 : ClientSimulation :=
  (initClient 1).update_market_price "X" 1

/-! ## Helper lemmas -/

theorem assocGet_assocSet_self {α : Type} (l : List (String × α)) (k : String)
    (v : α) : assocGet (assocSet l k v) k = some v := by
  induction l with
  | nil => simp [assocSet, assocGet]
  | cons hd tl ih =>
      obtain ⟨k1, v1⟩ := hd
      by_cases h : k1 = k
      · simp [assocSet, assocGet, h]
      · simp [assocSet, assocGet, h, ih]

theorem openPos_balance_nonneg (p : ManagerPosition) (P S b : ℚ) (sd : Int)
    (hb : 0 ≤ b) : 0 ≤ (p.openPos P S b sd).2.2 := by
  simp only [ManagerPosition.openPos]
  split_ifs with h1 h2
  · exact hb
  · exact hb
  · push_neg at h2
    simp only []
    linarith

theorem close_balance_nonneg (p : ManagerPosition) (P b : ℚ) :
    0 ≤ (p.close P b).2.2 := by
  simp only [ManagerPosition.close]
  split_ifs with h h2
  · norm_num
  · push_neg at h
    simpa using h
  · push_neg at h
    simpa using h

/-! ## Claim C1 -/

/-- C1 counterexample: closing a long (size 1, entry 100) at price 100 with
incoming balance −200 gives pre-clamp balance −100.05 < 0; the code clamps
the balance to 0 but reports `realizedPnl = 0`, not the claimed
`100.05 = −(pre-clamp balance)`. -/
theorem C1_counterexample :
    ((-200 : ℚ) + pLong.size * 100 - Fee.commission (pLong.size * 100)
        = -(2001 / 20)) ∧
    (pLong.close 100 (-200)).2.2 = 0 ∧
    (pLong.close 100 (-200)).2.1 = 0 ∧
    (pLong.close 100 (-200)).2.1 ≠ 2001 / 20 := by
  refine ⟨?_, ?_, ?_, ?_⟩ <;>
    norm_num [ManagerPosition.close, pLong, Fee.commission, Fee.Taker]

/-- C1 (amended): `close` computes
`newBalance = balance + size*currentPrice − commission`; when that is
negative it clamps the returned balance to 0 and reports
`realizedPnl = 0` — the negation of the already-clamped balance, because
the source assigns `balance = 0` before `realized_pnl = -balance`. -/
theorem C1_close_clamp_reports_zero_pnl (p : ManagerPosition)
    (current_price balance : ℚ)
    (h : balance + p.size * current_price
          - Fee.commission (p.size * current_price) < 0) :
    (p.close current_price balance).2.2 = 0 ∧
    (p.close current_price balance).2.1 = 0 := by
  simp only [ManagerPosition.close]
  rw [if_pos h]
  norm_num

/-- C1 witness: the amended theorem applied at the counterexample input. -/
theorem C1_witness :
    ((-200 : ℚ) + pLong.size * 100 - Fee.commission (pLong.size * 100) < 0) ∧
    ((pLong.close 100 (-200)).2.2 = 0 ∧ (pLong.close 100 (-200)).2.1 = 0) :=
  ⟨by norm_num [pLong, Fee.commission, Fee.Taker],
   C1_close_clamp_reports_zero_pnl pLong 100 (-200)
     (by norm_num [pLong, Fee.commission, Fee.Taker])⟩

/-! ## Claim C7 -/

/-- C7: `open` rejects with `(ok = false, balance)` and leaves every
position field unchanged whenever the size is at most the epsilon
`1e-10` or the balance is below `notional + commission`; the whole
returned triple is `(p, false, balance)`. -/
theorem C7_open_rejects_unchanged (p : ManagerPosition)
    (current_price position_size balance : ℚ) (side : Int)
    (h : position_size ≤ ManagerPosition.sizeEps ∨
      balance < Fee.commission (position_size * current_price)
        + position_size * current_price) :
    p.openPos current_price position_size balance side = (p, false, balance) := by
  simp only [ManagerPosition.openPos]
  split_ifs with h1 h2
  · rfl
  · rfl
  · rcases h with h | h
    · exact absurd h h1
    · exact absurd h h2

/-- C7 witness: a zero-size open request is rejected unchanged. -/
theorem C7_witness :
    ((0 : ℚ) ≤ ManagerPosition.sizeEps ∨
      (50 : ℚ) < Fee.commission (0 * 100) + 0 * 100) ∧
    initPosition.openPos 100 0 50 1 = (initPosition, false, 50) :=
  ⟨Or.inl (by norm_num [ManagerPosition.sizeEps]),
   C7_open_rejects_unchanged initPosition 100 0 50 1
     (Or.inl (by norm_num [ManagerPosition.sizeEps]))⟩

/-! ## Claim C8 -/

/-- C8 counterexample: starting from a flat position (which satisfies the
invariant), `open(current_price = 0, size = 1, balance = 10, side = 1)`
succeeds and yields `side = 1`, `size = 1`, `entryPrice = 0`, violating
`size = 0 ⇔ entryPrice = 0`; Open with side 1 does not establish all three
fields non-zero. -/
theorem C8_counterexample :
    flatInv initPosition ∧
    (initPosition.openPos 0 1 10 1).2.1 = true ∧
    ¬ flatInv ((initPosition.openPos 0 1 10 1).1) := by
  refine ⟨?_, ?_, ?_⟩ <;>
    norm_num [flatInv, initPosition, ManagerPosition.openPos,
      ManagerPosition.sizeEps, Fee.commission, Fee.Taker]

/-- C8 (amended): the flat invariant `side = 0 ⇔ size = 0 ⇔ entryPrice = 0`
is preserved by `close`, `reset` and `update` on any position satisfying it,
and by `open` with `side ∈ {1, −1}` provided additionally the fill price is
non-zero (at price 0 the code opens a position whose `entryPrice` is 0). -/
theorem C8_flat_invariant_preserved :
    (∀ (p : ManagerPosition) (P b : ℚ), flatInv ((p.close P b).1)) ∧
    (∀ p : ManagerPosition, flatInv p.reset) ∧
    (∀ (p : ManagerPosition) (P : ℚ), flatInv p → flatInv (p.update P)) ∧
    (∀ (p : ManagerPosition) (P S b : ℚ) (sd : Int),
      (sd = 1 ∨ sd = -1) → P ≠ 0 → flatInv p →
      flatInv ((p.openPos P S b sd).1)) := by
  refine ⟨?_, ?_, ?_, ?_⟩
  · intro p P b
    simp only [ManagerPosition.close]
    split_ifs <;> simp [flatInv]
  · intro p
    simp [flatInv, ManagerPosition.reset]
  · intro p P hp
    simp only [ManagerPosition.update]
    split_ifs with h0 h1 h2 <;> simp_all [flatInv] <;>
      exact fun e => hp.1 (hp.2.mpr e)
  · intro p P S b sd hsd hP hp
    simp only [ManagerPosition.openPos]
    split_ifs with h1 h2
    · exact hp
    · exact hp
    · have hS : S ≠ 0 := by
        intro e
        exact h1 (by rw [e]; norm_num [ManagerPosition.sizeEps])
      have hsd0 : sd ≠ 0 := by rcases hsd with rfl | rfl <;> decide
      simp [flatInv, hS, hP, hsd0]

/-- C8 witness: the amended theorem at concrete inputs for each of the four
operations. -/
theorem C8_witness :
    flatInv ((pLong.close 100 50).1) ∧
    flatInv pLong.reset ∧
    flatInv (initPosition.update 7) ∧
    flatInv ((initPosition.openPos 5 1 100 1).1) :=
  ⟨C8_flat_invariant_preserved.1 pLong 100 50,
   C8_flat_invariant_preserved.2.1 pLong,
   C8_flat_invariant_preserved.2.2.1 initPosition 7
     (by norm_num [flatInv, initPosition]),
   C8_flat_invariant_preserved.2.2.2 initPosition 5 1 100 1 (Or.inl rfl)
     (by norm_num) (by norm_num [flatInv, initPosition])⟩

/-! ## Claim C3 -/

/-- C3: starting from a non-negative balance, every sequence of `open` and
`close` calls on the position keeps the returned balance non-negative:
`open` either rejects with an unchanged balance or debits no more than the
balance, and `close` clamps a negative result to 0. -/
theorem C3_balance_never_negative (p : ManagerPosition) (b : ℚ)
    (ops : List PosOp) (hb : 0 ≤ b) :
    0 ≤ (runOps (p, b) ops).2 := by
  induction ops generalizing p b with
  | nil => simpa [runOps] using hb
  | cons o t ih =>
      have hstep : 0 ≤ (runOp (p, b) o).2 := by
        cases o with
        | opOpen price size side =>
            simpa [runOp] using openPos_balance_nonneg p price size b side hb
        | opClose price =>
            simpa [runOp] using close_balance_nonneg p price b
      have : runOps (p, b) (o :: t) = runOps (runOp (p, b) o) t := rfl
      rw [this]
      exact ih _ _ hstep

/-- C3 witness: an open followed by a close from balance 1000. -/
theorem C3_witness :
    (0 : ℚ) ≤ 1000 ∧
    0 ≤ (runOps (initPosition, 1000)
          [PosOp.opOpen 100 1 1, PosOp.opClose 110]).2 :=
  ⟨by norm_num,
   C3_balance_never_negative initPosition 1000
     [PosOp.opOpen 100 1 1, PosOp.opClose 110] (by norm_num)⟩

/-! ## Claim C4 -/

/-- C4 counterexample: open long size 1 at price 100 from balance 1000,
then close at price 100.  The code reports `realizedPnl = 0`, not the
claimed `−commission_open − commission_close = −1/10`. -/
theorem C4_counterexample :
    (initPosition.openPos 100 1 1000 1).2.1 = true ∧
    ((initPosition.openPos 100 1 1000 1).1.close 100
        (initPosition.openPos 100 1 1000 1).2.2).2.1 = 0 ∧
    ((initPosition.openPos 100 1 1000 1).1.close 100
        (initPosition.openPos 100 1 1000 1).2.2).2.1
      ≠ -Fee.commission (1 * 100) - Fee.commission (1 * 100) := by
  refine ⟨?_, ?_, ?_⟩ <;>
    norm_num [ManagerPosition.openPos, ManagerPosition.close,
      ManagerPosition.sizeEps, initPosition, Fee.commission, Fee.Taker]

/-- C4 (amended): an `open` at price P with size S followed immediately by
a `close` at the same price P reports `realizedPnl = 0`; the pure
commission cost shows up in the balance instead, which ends at
`balance − commission_open − commission_close`. -/
theorem C4_round_trip (p : ManagerPosition) (P S b : ℚ) (sd : Int)
    (hS : ManagerPosition.sizeEps < S) (hP : 0 ≤ P)
    (hb : Fee.commission (S * P) + S * P ≤ b) :
    (p.openPos P S b sd).2.1 = true ∧
    ((p.openPos P S b sd).1.close P (p.openPos P S b sd).2.2).2.1 = 0 ∧
    ((p.openPos P S b sd).1.close P (p.openPos P S b sd).2.2).2.2
      = b - Fee.commission (S * P) - Fee.commission (S * P) := by
  have h1 : ¬ (S ≤ ManagerPosition.sizeEps) := not_le.mpr hS
  have h2 : ¬ (b < Fee.commission (S * P) + S * P) := not_lt.mpr hb
  have hSP : 0 ≤ S * P := by
    have h0 : (0 : ℚ) < S := lt_trans (by norm_num [ManagerPosition.sizeEps]) hS
    exact mul_nonneg h0.le hP
  have hcomm : Fee.commission (S * P) ≤ S * P := by
    simp only [Fee.commission, Fee.Taker]
    nlinarith
  simp only [ManagerPosition.openPos, h1, h2, if_false, ite_false]
  simp only [ManagerPosition.close]
  have hnoclamp :
      ¬ (b - Fee.commission (S * P) - S * P + S * P
          - Fee.commission (S * P) < 0) := by
    push_neg
    linarith
  refine ⟨trivial, ?_, ?_⟩ <;> rw [if_neg hnoclamp]
  · simp
  · show b - Fee.commission (S * P) - S * P + S * P - Fee.commission (S * P)
      = b - Fee.commission (S * P) - Fee.commission (S * P)
    ring

/-- C4 witness: the amended round-trip theorem at P = 100, S = 1,
balance 1000. -/
theorem C4_witness :
    (ManagerPosition.sizeEps < 1 ∧ (0 : ℚ) ≤ 100 ∧
      Fee.commission ((1 : ℚ) * 100) + 1 * 100 ≤ 1000) ∧
    ((initPosition.openPos 100 1 1000 1).2.1 = true ∧
     ((initPosition.openPos 100 1 1000 1).1.close 100
         (initPosition.openPos 100 1 1000 1).2.2).2.1 = 0 ∧
     ((initPosition.openPos 100 1 1000 1).1.close 100
         (initPosition.openPos 100 1 1000 1).2.2).2.2
       = 1000 - Fee.commission (1 * 100) - Fee.commission (1 * 100)) :=
  ⟨⟨by norm_num [ManagerPosition.sizeEps], by norm_num,
    by norm_num [Fee.commission, Fee.Taker]⟩,
   C4_round_trip initPosition 100 1 1000 1
     (by norm_num [ManagerPosition.sizeEps]) (by norm_num)
     (by norm_num [Fee.commission, Fee.Taker])⟩

/-! ## Claim C2 -/

/-- C2 counterexample: with an existing long of size 1 at entry 100,
`ManagerPosition.open` with the same side, size 1 at price 200 succeeds and
sets `entryPrice = 200`, not the claimed size-weighted average
`(1·100 + 1·200) / (1 + 1) = 150`. -/
theorem C2_counterexample :
    pLong.side = 1 ∧
    (pLong.openPos 200 1 10000 1).2.1 = true ∧
    (pLong.openPos 200 1 10000 1).1.entry_price = 200 ∧
    (pLong.openPos 200 1 10000 1).1.entry_price
      ≠ ((1 : ℚ) * 100 + 1 * 200) / (1 + 1) := by
  refine ⟨rfl, ?_, ?_, ?_⟩ <;>
    norm_num [ManagerPosition.openPos, ManagerPosition.sizeEps, pLong,
      Fee.commission, Fee.Taker]

/-- C2 (amended): `ManagerPosition.open` on an existing long is a
replacement, not an averaging scale-in — it overwrites
`entryPrice = P2` and `size = S2`; the size-weighted average
`(S1·P1 + S2·P2) / (S1 + S2)` holds instead for the client-level
`ClientSimulation._update_position` when a buy fill of size S2 at price P2
lands on an existing long of size S1 at entry P1. -/
theorem C2_scale_in :
    (∀ (p : ManagerPosition) (P2 S2 b : ℚ), p.side = 1 →
      ManagerPosition.sizeEps < S2 →
      Fee.commission (S2 * P2) + S2 * P2 ≤ b →
      (p.openPos P2 S2 b 1).1.entry_price = P2 ∧
      (p.openPos P2 S2 b 1).1.size = S2) ∧
    (∀ (c : ClientSimulation) (sym : String) (S1 P1 S2 P2 : ℚ),
      0 < S1 → 0 < S2 →
      assocGet c.positions sym = some ⟨S1, P1⟩ →
      assocGet (c.update_position sym OrderSide.buy S2 P2).positions sym
        = some ⟨S1 + S2, (S1 * P1 + S2 * P2) / (S1 + S2)⟩) := by
  constructor
  · intro p P2 S2 b _ hS hb
    have h1 : ¬ (S2 ≤ ManagerPosition.sizeEps) := not_le.mpr hS
    have h2 : ¬ (b < Fee.commission (S2 * P2) + S2 * P2) := not_lt.mpr hb
    simp [ManagerPosition.openPos, h1, h2]
  · intro c sym S1 P1 S2 P2 hS1 hS2 hget
    have hsum : (0 : ℚ) < S1 + S2 := by linarith
    have hprod : ¬ (S1 * (S1 + S2) ≤ 0 ∨ S1 + S2 = 0) := by
      push_neg
      exact ⟨mul_pos hS1 hsum, ne_of_gt hsum⟩
    simp only [ClientSimulation.update_position, hget, Option.getD_some]
    rw [if_neg hprod]
    rw [abs_of_pos hS1, abs_of_pos hsum]
    exact assocGet_assocSet_self _ _ _

/-- C2 witness: the amended theorem at S1 = 1, P1 = 100, S2 = 1, P2 = 200
for both the position-manager and the client-level paths. -/
theorem C2_witness :
    ((pLong.openPos 200 1 10000 1).1.entry_price = 200 ∧
      (pLong.openPos 200 1 10000 1).1.size = 1) ∧
    assocGet ((cPos.update_position "X" OrderSide.buy 1 200).positions) "X"
      = some ⟨1 + 1, ((1 : ℚ) * 100 + 1 * 200) / (1 + 1)⟩ :=
  ⟨C2_scale_in.1 pLong 200 1 10000 rfl
     (by norm_num [ManagerPosition.sizeEps])
     (by norm_num [Fee.commission, Fee.Taker]),
   C2_scale_in.2 cPos "X" 1 100 1 200 (by norm_num) (by norm_num)
     (by simp [cPos, assocGet])⟩

/-! ## Matching-scan characterization lemmas -/

theorem update_position_effects (c : ClientSimulation) (sym : String)
    (sd : OrderSide) (q px : ℚ) :
    (c.update_position sym sd q px).orders = c.orders ∧
    (c.update_position sym sd q px).trades = c.trades ∧
    (c.update_position sym sd q px).market_prices = c.market_prices ∧
    (c.update_position sym sd q px).balance
      = c.balance - calculate_commission (px * q) := by
  simp [ClientSimulation.update_position]

theorem foldl_fillStep_spec (symbol : String) (price : ℚ) (l : List Order)
    (c : ClientSimulation) (done : List Order) :
    l.foldl (ClientSimulation.fillStep symbol price) (c, done)
      = ((l.filter (ClientSimulation.eligibleLimit symbol price)).foldl
           (ClientSimulation.applyFill symbol) c,
         done ++ l.map (ClientSimulation.markFilled symbol price)) := by
  induction l generalizing c done with
  | nil => simp
  | cons o t ih =>
      simp only [List.foldl_cons, List.filter_cons, List.map_cons]
      cases h : ClientSimulation.eligibleLimit symbol price o with
      | false =>
          rw [show ClientSimulation.fillStep symbol price (c, done) o
                = (c, done ++ [o]) from by
              simp [ClientSimulation.fillStep, h]]
          rw [ih]
          simp [ClientSimulation.markFilled, h]
      | true =>
          rw [show ClientSimulation.fillStep symbol price (c, done) o
                = (ClientSimulation.applyFill symbol c o,
                   done ++ [{ o with status := OrderStatus.filled }]) from by
              simp [ClientSimulation.fillStep, h, ClientSimulation.applyFill]]
          rw [ih]
          simp [ClientSimulation.markFilled, h]

theorem foldl_applyFill_spec (symbol : String) (l : List Order)
    (c : ClientSimulation) :
    (l.foldl (ClientSimulation.applyFill symbol) c).trades
        = c.trades ++ l.map (ClientSimulation.tradeOf symbol) ∧
    (l.foldl (ClientSimulation.applyFill symbol) c).balance
        = c.balance
          - (l.map (fun o => calculate_commission (o.price * o.quantity))).sum ∧
    (l.foldl (ClientSimulation.applyFill symbol) c).orders = c.orders ∧
    (l.foldl (ClientSimulation.applyFill symbol) c).market_prices
        = c.market_prices := by
  induction l generalizing c with
  | nil => simp
  | cons o t ih =>
      simp only [List.foldl_cons, List.map_cons, List.sum_cons]
      obtain ⟨h1, h2, h3, h4⟩ := ih (ClientSimulation.applyFill symbol c o)
      refine ⟨?_, ?_, ?_, ?_⟩
      · rw [h1]
        simp [ClientSimulation.applyFill, ClientSimulation.update_position]
      · rw [h2]
        simp only [ClientSimulation.applyFill, ClientSimulation.update_position]
        ring
      · rw [h3]
        simp [ClientSimulation.applyFill, ClientSimulation.update_position]
      · rw [h4]
        simp [ClientSimulation.applyFill, ClientSimulation.update_position]

theorem check_limit_orders_spec (c : ClientSimulation) (symbol : String)
    (price : ℚ) :
    c.check_limit_orders symbol price
      = { (c.orders.filter (ClientSimulation.eligibleLimit symbol price)).foldl
            (ClientSimulation.applyFill symbol) c with
          orders := c.orders.map (ClientSimulation.markFilled symbol price) } := by
  unfold ClientSimulation.check_limit_orders
  rw [foldl_fillStep_spec]
  simp

theorem mapMark_eq_self (symbol : String) (price : ℚ) (l : List Order)
    (h : ∀ o ∈ l, ¬ ClientSimulation.eligibleLimit symbol price o = true) :
    l.map (ClientSimulation.markFilled symbol price) = l := by
  induction l with
  | nil => rfl
  | cons o t ih =>
      simp only [List.map_cons]
      rw [show ClientSimulation.markFilled symbol price o = o from by
            simp [ClientSimulation.markFilled,
              Bool.of_not_eq_true (h o (by simp))]]
      rw [ih fun o ho => h o (by simp [ho])]

/-! ## Claim C5 -/

/-- C5: on a price tick, every resting `New` limit order for the symbol is
marked `Filled` exactly when `(side=Buy ∧ price ≤ limit) ∨ (side=Sell ∧
price ≥ limit)`; each matched order produces a trade at its own limit price
(`tradeOf`), and when no order matches the scan leaves the whole client
state unchanged. -/
theorem C5_limit_fill_rule (c : ClientSimulation) (symbol : String)
    (price : ℚ) :
    ((c.check_limit_orders symbol price).orders
        = c.orders.map (fun o =>
            if ClientSimulation.eligibleLimit symbol price o then
              { o with status := OrderStatus.filled } else o)) ∧
    ((c.check_limit_orders symbol price).trades
        = c.trades
          ++ (c.orders.filter (ClientSimulation.eligibleLimit symbol price)).map
              (ClientSimulation.tradeOf symbol)) ∧
    (∀ o : Order, ClientSimulation.eligibleLimit symbol price o = true ↔
        (o.symbol = symbol ∧ o.status = OrderStatus.new ∧
         o.otype = OrderType.limit ∧
         ((o.side = OrderSide.buy ∧ price ≤ o.price) ∨
          (o.side = OrderSide.sell ∧ o.price ≤ price)))) ∧
    (c.orders.filter (ClientSimulation.eligibleLimit symbol price) = [] →
        c.check_limit_orders symbol price = c) := by
  refine ⟨?_, ?_, ?_, ?_⟩
  · rw [check_limit_orders_spec]
    rfl
  · rw [check_limit_orders_spec]
    exact (foldl_applyFill_spec symbol _ c).1
  · intro o
    simp [ClientSimulation.eligibleLimit]
  · intro hfil
    rw [check_limit_orders_spec, hfil,
      mapMark_eq_self symbol price c.orders (List.filter_eq_nil_iff.mp hfil)]
    rfl

/-- C5 witness: a resting buy limit at 50 does not fill on a tick at 60 and
the state is untouched. -/
theorem C5_witness :
    (cRest.orders.filter (ClientSimulation.eligibleLimit "X" 60) = []) ∧
    cRest.check_limit_orders "X" 60 = cRest :=
  ⟨by norm_num [cRest, initClient, ClientSimulation.place_limit_order,
      ClientSimulation.eligibleLimit]; decide,
   (C5_limit_fill_rule cRest "X" 60).2.2.2
     (by norm_num [cRest, initClient, ClientSimulation.place_limit_order,
        ClientSimulation.eligibleLimit]; decide)⟩

/-! ## Claim C6 -/

/-- C6: the trades appended by one price tick carry exactly the order ids
of the eligible resting orders, in the order-list (submission) order; that
id sequence is a sublist of the full submission-ordered id sequence, so
simultaneous fills are FIFO and never reordered by price. -/
theorem C6_fifo_tiebreak (c : ClientSimulation) (symbol : String)
    (price : ℚ) :
    ((c.update_market_price symbol price).trades.map (fun t => t.orderId)
        = c.trades.map (fun t => t.orderId)
          ++ (c.orders.filter (ClientSimulation.eligibleLimit symbol price)).map
              (fun o => o.orderId)) ∧
    ((c.orders.filter (ClientSimulation.eligibleLimit symbol price)).map
        (fun o => o.orderId)).Sublist
      (c.orders.map (fun o => o.orderId)) := by
  constructor
  · simp only [ClientSimulation.update_market_price]
    rw [check_limit_orders_spec]
    rw [show ({ c with
          market_prices := assocSet c.market_prices symbol price } :
            ClientSimulation).orders = c.orders from rfl]
    rw [(foldl_applyFill_spec symbol
      (c.orders.filter (ClientSimulation.eligibleLimit symbol price)) _).1]
    simp [List.map_append, List.map_map, Function.comp,
      ClientSimulation.tradeOf]
  · exact (List.filter_sublist _).map _

/-! ## Claim C9 -/

/-- C9 counterexample: after a recorded tick of price 0 for "X", a price
tick *has* been recorded, yet `place_market_order` still returns the empty
result and changes nothing — Python's `if not price:` treats a cached price
of 0 like a missing one. -/
theorem C9_counterexample :
    assocGet cZero.market_prices "X" = some 0 ∧
    (cZero.place_market_order "X" OrderSide.buy 1 false).2 = none ∧
    (cZero.place_market_order "X" OrderSide.buy 1 false).1 = cZero := by
  refine ⟨?_, ?_, ?_⟩ <;>
    norm_num [cZero, initClient, ClientSimulation.update_market_price,
      ClientSimulation.check_limit_orders, ClientSimulation.place_market_order,
      assocGet, assocSet]

/-- C9 (amended): `place_market_order` returns the empty result with the
client state untouched when no price is cached for the symbol *or* the
cached price is 0; for a non-zero cached price `px` it synchronously
returns a `Filled` order at `px` and appends that order and its trade. -/
theorem C9_market_order_price_ref (c : ClientSimulation) (symbol : String)
    (side : OrderSide) (q : ℚ) (r : Bool) :
    (assocGet c.market_prices symbol = none →
      c.place_market_order symbol side q r = (c, none)) ∧
    (assocGet c.market_prices symbol = some 0 →
      c.place_market_order symbol side q r = (c, none)) ∧
    (∀ px : ℚ, assocGet c.market_prices symbol = some px → px ≠ 0 →
      (c.place_market_order symbol side q r).2
          = some { orderId := c.orders.length, symbol := symbol, side := side,
                   otype := OrderType.market, quantity := q, price := px,
                   reduceOnly := r, status := OrderStatus.filled } ∧
      (c.place_market_order symbol side q r).1.orders
          = c.orders
            ++ [{ orderId := c.orders.length, symbol := symbol, side := side,
                  otype := OrderType.market, quantity := q, price := px,
                  reduceOnly := r, status := OrderStatus.filled }] ∧
      (c.place_market_order symbol side q r).1.trades
          = c.trades
            ++ [{ symbol := symbol, orderId := c.orders.length, side := side,
                  price := px, quantity := q,
                  commission := calculate_commission (px * q) }]) := by
  refine ⟨?_, ?_, ?_⟩
  · intro h
    simp [ClientSimulation.place_market_order, h]
  · intro h
    simp [ClientSimulation.place_market_order, h]
  · intro px h hne
    refine ⟨?_, ?_, ?_⟩ <;>
      simp [ClientSimulation.place_market_order, h, hne,
        ClientSimulation.update_position]

/-- C9 witness: the amended theorem with no tick recorded, and with a
non-zero tick recorded. -/
theorem C9_witness :
    ((initClient 100).place_market_order "X" OrderSide.buy 1 false
        = (initClient 100, none)) ∧
    (cTick1.place_market_order "X" OrderSide.sell 2 true).2
        = some { orderId := cTick1.orders.length, symbol := "X",
                 side := OrderSide.sell, otype := OrderType.market,
                 quantity := 2, price := 1, reduceOnly := true,
                 status := OrderStatus.filled } :=
  ⟨(C9_market_order_price_ref (initClient 100) "X" OrderSide.buy 1 false).1
     (by norm_num [initClient, assocGet]),
   ((C9_market_order_price_ref cTick1 "X" OrderSide.sell 2 true).2.2 1
     (by norm_num [cTick1, initClient, ClientSimulation.update_market_price,
        ClientSimulation.check_limit_orders, assocGet, assocSet])
     (by norm_num)).1⟩

/-! ## Claim C10 -/

/-- C10: every client-level fill (synchronous market order or limit-order
match on a tick) changes the cash balance by exactly
`−(fill price × quantity × 0.0005)` — the notional is never debited, no
balance-sufficiency check exists on this path whatever the side, balance or
`reduceOnly` flag, and a fill can push the balance below zero (balance 1,
buy 4000 at price 1 ends at −1). -/
theorem C10_fill_commission_only :
    (∀ (c : ClientSimulation) (symbol : String) (side : OrderSide) (q : ℚ)
        (r : Bool) (px : ℚ),
      assocGet c.market_prices symbol = some px → px ≠ 0 →
      (c.place_market_order symbol side q r).1.balance
        = c.balance - px * q * Fee.Taker) ∧
    (∀ (c : ClientSimulation) (symbol : String) (price : ℚ),
      (c.check_limit_orders symbol price).balance
        = c.balance
          - ((c.orders.filter (ClientSimulation.eligibleLimit symbol price)).map
              (fun o => o.price * o.quantity * Fee.Taker)).sum) ∧
    Fee.Taker = 5 / 10000 ∧
    0 < cTick1.balance ∧
    (cTick1.place_market_order "X" OrderSide.buy 4000 false).1.balance < 0 := by
  refine ⟨?_, ?_, by norm_num [Fee.Taker], ?_, ?_⟩
  · intro c symbol side q r px h hne
    simp [ClientSimulation.place_market_order, h, hne,
      ClientSimulation.update_position, calculate_commission]
  · intro c symbol price
    rw [check_limit_orders_spec]
    rw [show ({ (c.orders.filter (ClientSimulation.eligibleLimit symbol price)).foldl
          (ClientSimulation.applyFill symbol) c with
        orders := c.orders.map (ClientSimulation.markFilled symbol price) } :
          ClientSimulation).balance
      = ((c.orders.filter (ClientSimulation.eligibleLimit symbol price)).foldl
          (ClientSimulation.applyFill symbol) c).balance from rfl]
    rw [(foldl_applyFill_spec symbol _ c).2.1]
    simp [calculate_commission]
  · norm_num [cTick1, initClient, ClientSimulation.update_market_price,
      ClientSimulation.check_limit_orders]
  · norm_num [cTick1, initClient, ClientSimulation.update_market_price,
      ClientSimulation.check_limit_orders, ClientSimulation.place_market_order,
      ClientSimulation.update_position, calculate_commission, Fee.Taker,
      assocGet, assocSet]

/-- C10 witness: the market-order clause applied at the concrete client
with balance 1 and cached price 1. -/
theorem C10_witness :
    (assocGet cTick1.market_prices "X" = some 1 ∧ (1 : ℚ) ≠ 0) ∧
    (cTick1.place_market_order "X" OrderSide.buy 4000 false).1.balance
      = cTick1.balance - 1 * 4000 * Fee.Taker :=
  ⟨⟨by norm_num [cTick1, initClient, ClientSimulation.update_market_price,
      ClientSimulation.check_limit_orders, assocGet, assocSet],
    by norm_num⟩,
   C10_fill_commission_only.1 cTick1 "X" OrderSide.buy 4000 false 1
     (by norm_num [cTick1, initClient, ClientSimulation.update_market_price,
        ClientSimulation.check_limit_orders, assocGet, assocSet])
     (by norm_num)⟩
